import Mathlib

/-!
Shallow embedding of the wallet intercom broker
(src/services/intercom/intercom-broker.ts) and of the wallet/address API
endpoint (src/server/api/endpoints/wallet/address.ts).

The database is modelled as plain lists of rows, one list per table, in
insertion order; every query-builder call of the source becomes a pure
operation on those lists.  Numeric amounts are modelled as exact rationals:
the source converts the decimal string with JavaScript parseFloat (a binary
double); the model keeps the exact value of that decimal string, so the
binary rounding of the source is not modelled.

The NOTIFY handler in the source is not valid TypeScript as written; the
embedding follows its evident control flow at the three broken spots, and
each repair is recorded in the doc comment of the definition that makes it.
-/

namespace WalletBroker

/-- Row of user_wallet_tx.  txtype 1 is the raw network observation, txtype 3
a per-user credit entry.  Columns not listed in an insert keep their defaults:
complete = false, processed = false, amount absent, userId absent. -/
structure TxRow where
  userId : Option String
  txid : String
  blockhash : String
  coinType : Nat
  txtype : Nat
  confirms : Int
  complete : Bool
  processed : Bool
  amount : Option Rat
deriving DecidableEq

/-- Row of user_wallet_job, keyed by job (= txid). -/
structure JobRow where
  job : String
  type : String
  state : Nat
  userId : Option String
  data : String
  result : Option String
deriving DecidableEq

/-- Row of user_wallet_address: maps a wallet address to a site user. -/
structure AddrRow where
  address : String
  userId : Option String
deriving DecidableEq

/-- Row of user_wallet_balance, keyed by userId. -/
structure BalRow where
  userId : String
  balance : Rat
deriving DecidableEq

/-- Row of user_wallet_status, keyed by type (the coin symbol). -/
structure StatusRow where
  type : String
  online : Bool
  synced : Bool
  crawling : Bool
  blockheight : Int
  blockhash : String
  blocktime : Int
  updatedAt : Int
deriving DecidableEq

/-- The five tables of the persistence layer, each in insertion order. -/
structure Db where
  txs : List TxRow
  jobs : List JobRow
  addrs : List AddrRow
  bals : List BalRow
  statuses : List StatusRow
deriving DecidableEq

def emptyDb : Db := ⟨[], [], [], [], []⟩

/-! ## parseFromIntString (source lines 157-179) -/

/-- Numeric value of a digit character, as in the usual char arithmetic. -/
def digitVal (c : Char) : Nat := c.toNat - 48

/-- Value of a digit list read as a base-10 numeral. -/
def valNatL (cs : List Char) : Nat := cs.foldl (fun a c => 10 * a + digitVal c) 0

/-- Value of a digit string read as a base-10 numeral. -/
def valNat (s : String) : Nat := valNatL s.toList

/-- One iteration of the padding loop of parseFromIntString: for index i,
the source appends the character s[i] when i < length and otherwise prepends
a zero (the JS condition i <= length - 1 over JS numbers is i < length). -/
def padStep (s : List Char) (L i : Nat) (acc : List Char) : List Char :=
  if i < L then acc ++ [s.getD i ' '] else '0' :: acc

/-- The padding loop of parseFromIntString run for i = 0 .. n-1,
starting from the empty accumulator. -/
def padIter (s : List Char) (L : Nat) : Nat → List Char
  | 0 => []
  | n + 1 => padStep s L n (padIter s L n)

/-- List-level core of parseFromIntString: the source splits the integer
string at length - precision when it is longer than the precision, and
otherwise emits integer part 0 with the digits run through the padding loop. -/
def parseFromIntStringL (cs : List Char) (precision : Nat) : List Char :=
  if precision < cs.length then
    cs.take (cs.length - precision) ++ '.' :: cs.drop (cs.length - precision)
  else
    '0' :: '.' :: padIter cs cs.length precision

/-- parseFromIntString of the source: integer string to textual decimal. -/
def parseFromIntString (intString : String) (precision : Nat) : String :=
  (parseFromIntStringL intString.toList precision).asString

/-- Split a character list at the first dot: integer digits and fractional
digits of a decimal numeral. -/
def splitDot (cs : List Char) : List Char × List Char :=
  (cs.takeWhile (fun c => c != '.'), ((cs.dropWhile (fun c => c != '.')).drop 1))

/-- List-level exact rational value of a decimal numeral int.frac. -/
def decStrToRatL (cs : List Char) : Rat :=
  (valNatL (splitDot cs).1 : Rat) +
    (valNatL (splitDot cs).2 : Rat) / (10 : Rat) ^ (splitDot cs).2.length

/-- Exact rational value of a decimal string of the form int.frac (or a bare
integer).  This models the value JavaScript parseFloat is applied to in the
source; the rounding of that value to a binary double is not modelled. -/
def decStrToRat (s : String) : Rat := decStrToRatL s.toList

/-! ## The NOTIFY handler (source lines 181-369)

The handler is embedded statement by statement over the Db state.  Three
spots of the source are not valid TypeScript and are embedded by their
evident intent, each noted below:

* line 209 reads `tx.complete` before the declaration of `tx` at line 253
  (a use-before-declaration error); the embedding reads the complete flag of
  the current transaction row for the txid, with a missing row counting as
  not complete, which is the evident intent of the job-creation guard;
* line 221 assigns to the constant `jobe`; the embedding treats `jobe` as the
  mutable flag the assignment intends, so the later job processing takes the
  update path once a job row was just created;
* line 358 has a stray semicolon inside the object literal `{balance: nbal;}`;
  the embedding reads it as `{balance: nbal}`.

Two further semantic notes: the type-3 insert at line 339 passes the
attribution object as the `processed` column; the embedding records its
truthiness (true).  The balance update at line 353 reads `.balance` of a
lookup that can be undefined; when the user has no balance row the handler
therefore throws and sends no reply, which the embedding models by
returning the partial state with no reply string. -/

/-- Parsed NOTIFY payload: txid, coin, confirmations, the balances array of
address and integer-string balance pairs, and the raw message text stored
into the job data column. -/
structure NotifyPayload where
  txid : String
  coin : String
  confirmations : Int
  balances : List (String × String)
  raw : String
deriving DecidableEq

/-- getOne on user_wallet_tx by txid: first row in insertion order. -/
def findTx (txs : List TxRow) (t : String) : Option TxRow :=
  txs.find? (fun r => r.txid == t)

/-- getOne on user_wallet_address by address. -/
def findAddr (rows : List AddrRow) (a : String) : Option AddrRow :=
  rows.find? (fun r => r.address == a)

/-- getOne on user_wallet_balance by userId. -/
def findBal (rows : List BalRow) (u : String) : Option BalRow :=
  rows.find? (fun r => r.userId == u)

/-- getCount > 0 on user_wallet_job by job key. -/
def jobExists (jobs : List JobRow) (t : String) : Bool :=
  (jobs.find? (fun j => j.job == t)).isSome

/-- Complete flag of the transaction row for a txid; no row counts as not
complete (the repaired reading of the line-209 guard, see above). -/
def txCompleteOf (txs : List TxRow) (t : String) : Bool :=
  match findTx txs t with
  | some r => r.complete
  | none => false

/-- Insert of line 226: fresh type-1 row with the delivered confirmations. -/
def mkTx1 (p : NotifyPayload) : TxRow :=
  ⟨none, p.txid, "", 0, 1, p.confirmations, false, false, none⟩

/-- Insert of line 210: fresh job row in state 0 holding the raw payload. -/
def mkJob0 (p : NotifyPayload) : JobRow :=
  ⟨p.txid, p.coin, 0, none, p.raw, none⟩

/-- Insert of line 283: job row created directly in state 3 (dead in the
repaired control flow, kept for fidelity). -/
def mkJob3 (p : NotifyPayload) (uid : String) : JobRow :=
  ⟨p.txid, p.coin, 3, some uid, p.raw, none⟩

/-- Update of line 242: set confirms on every row with the txid. -/
def setConfirms (txs : List TxRow) (t : String) (c : Int) : List TxRow :=
  txs.map (fun r => if r.txid == t then { r with confirms := c } else r)

/-- Update of line 312: set confirms, complete and processed on every row
with the txid. -/
def finalizeTx (txs : List TxRow) (t : String) (c : Int) : List TxRow :=
  txs.map (fun r =>
    if r.txid == t then
      { r with confirms := c, complete := decide (3 ≤ c), processed := true }
    else r)

/-- Update of line 297: promote every job row with the key to state 3. -/
def promoteJobs (jobs : List JobRow) (t : String) (uid : String) : List JobRow :=
  jobs.map (fun j =>
    if j.job == t then { j with userId := some uid, state := 3, result := some "okay" }
    else j)

/-- users.set of line 280 on the attribution map: JS Map insertion order,
overwriting the entry of an address already present. -/
def upsertAttr (us : List (String × String × String)) (a uid bal : String) :
    List (String × String × String) :=
  if us.any (fun e => e.1 == a) then
    us.map (fun e => if e.1 == a then (a, uid, bal) else e)
  else us ++ [(a, uid, bal)]

/-- Loop of lines 268-309: for each balances entry look the address up, and
when it maps to a user collect the attribution and create or promote the
job row. -/
def collectLoop (p : NotifyPayload) (jobe : Bool) :
    List (String × String) → Db → List (String × String × String) →
      Db × List (String × String × String)
  | [], db, us => (db, us)
  | (a, bal) :: rest, db, us =>
    match findAddr db.addrs a with
    | none => collectLoop p jobe rest db us
    | some ar =>
      match ar.userId with
      | none => collectLoop p jobe rest db us
      | some uid =>
        let us2 := upsertAttr us ar.address uid bal
        let db2 :=
          if jobe then { db with jobs := promoteJobs db.jobs p.txid uid }
          else { db with jobs := db.jobs ++ [mkJob3 p uid] }
        collectLoop p jobe rest db2 us2

/-- Balance update of line 354: add the amount to every row of the user. -/
def addBal (rows : List BalRow) (uid : String) (amt : Rat) : List BalRow :=
  rows.map (fun r => if r.userId == uid then { r with balance := r.balance + amt } else r)

/-- Credit row insert of line 328: type-3 row for the attributed user, with
the address recorded in the blockhash column as the source does. -/
def mkCredit (p : NotifyPayload) (a uid : String) (amt : Rat) : TxRow :=
  ⟨some uid, p.txid, a, 0, 3, p.confirmations, true, true, some amt⟩

/-- Loop of lines 324-363: per attributed address insert the type-3 row,
then read the balance row and add the amount.  When the balance row is
missing the source throws on reading .balance of undefined: the loop stops
with the partial state and the failure flag. -/
def creditLoop (p : NotifyPayload) :
    List (String × String × String) → Db → Db × Bool
  | [], db => (db, true)
  | (a, uid, balStr) :: rest, db =>
    let amt := decStrToRat (parseFromIntString balStr 8)
    let db1 := { db with txs := db.txs ++ [mkCredit p a uid amt] }
    match findBal db1.bals uid with
    | none => (db1, false)
    | some _ => creditLoop p rest { db1 with bals := addBal db1.bals uid amt }

/-- Guard of line 209 with the repaired reading of tx.complete: no job row
yet, transaction not complete, and nonnegative confirmations. -/
def createJobCond (p : NotifyPayload) (db : Db) : Bool :=
  !jobExists db.jobs p.txid && !txCompleteOf db.txs p.txid && decide (0 ≤ p.confirmations)

/-- Job creation of lines 209-222. -/
def ensureJob (p : NotifyPayload) (db : Db) : Db :=
  if createJobCond p db then { db with jobs := db.jobs ++ [mkJob0 p] } else db

/-- Value of the jobe flag after lines 209-222 (true when a job row existed
or was just created, per the repaired assignment of line 221). -/
def jobeAfter (p : NotifyPayload) (db : Db) : Bool :=
  jobExists db.jobs p.txid || createJobCond p db

/-- Step of lines 225-250: insert or confirms-update of the transaction row. -/
def ensureTx (p : NotifyPayload) (db : Db) : Db :=
  if (findTx db.txs p.txid).isSome then
    { db with txs := setConfirms db.txs p.txid p.confirmations }
  else
    { db with txs := db.txs ++ [mkTx1 p] }

/-- The crediting block of lines 266-363: collect the attribution set while
creating or promoting the job, finalize the transaction row, then run the
credit loop.  The Bool is false when the credit loop threw. -/
def notifyCredit (p : NotifyPayload) (jobe : Bool) (db2 : Db) : Db × Bool :=
  let cres := collectLoop p jobe p.balances db2 []
  let db4 := { cres.1 with txs := finalizeTx cres.1.txs p.txid p.confirmations }
  creditLoop p cres.2 db4

/-- Lines 252-367: read the transaction row back, run the crediting block
when the row is not complete and confirmations reach the threshold, and
reply (no reply when the credit loop threw). -/
def notifyAfter (p : NotifyPayload) (jobe : Bool) (db2 : Db) : Db × Option String :=
  match findTx db2.txs p.txid with
  | none => (db2, some "Recieved NOTIFY")
  | some tx =>
    if !tx.complete && decide (3 ≤ p.confirmations) then
      ((notifyCredit p jobe db2).1,
        if (notifyCredit p jobe db2).2 then some "Recieved NOTIFY" else none)
    else (db2, some "Recieved NOTIFY")

/-- The NOTIFY handler.  Returns the final database state and the reply,
none when the handler throws before replying. -/
def notifyHandler (p : NotifyPayload) (db : Db) : Db × Option String :=
  notifyAfter p (jobeAfter p db) (ensureTx p (ensureJob p db))

/-- Database component of the NOTIFY handler result. -/
def notifyDb (p : NotifyPayload) (db : Db) : Db := (notifyHandler p db).1

/-! ## The HEARTBEAT handler (source lines 371-421) -/

/-- Payload of a HEARTBEAT message. -/
structure HeartbeatPayload where
  coin : String
  online : Bool
  synced : Bool
  crawling : Bool
  blockheight : Int
  bestBlockHash : String
  blocktime : Int
deriving DecidableEq

/-- Status row carrying the fields of a heartbeat at a given time.
Modelled from the spec: the user_wallet_status entity is not under src/,
and its column defaults supply updatedAt on the insert path (the update
path of the handler sets updatedAt explicitly). -/
def mkStatus (p : HeartbeatPayload) (now : Int) : StatusRow :=
  ⟨p.coin, p.online, p.synced, p.crawling, p.blockheight, p.bestBlockHash, p.blocktime, now⟩

/-- Update of lines 389-402 applied to one status row: set every field from
the heartbeat and updatedAt to now when the row is the one of the coin. -/
def statusUpdateRow (p : HeartbeatPayload) (now : Int) (r : StatusRow) : StatusRow :=
  if r.type == p.coin then
    { r with online := p.online, synced := p.synced, crawling := p.crawling,
             blockheight := p.blockheight, blockhash := p.bestBlockHash,
             blocktime := p.blocktime, updatedAt := now }
  else r

/-- The HEARTBEAT handler: update the status row of the coin when one
exists, insert it otherwise, and reply. -/
def heartbeatHandler (p : HeartbeatPayload) (now : Int) (db : Db) : Db × String :=
  if db.statuses.any (fun r => r.type == p.coin) then
    ({ db with statuses := db.statuses.map (statusUpdateRow p now) }, "Recieved HEARTBEAT")
  else
    ({ db with statuses := db.statuses ++ [mkStatus p now] }, "Recieved HEARTBEAT")

/-! ## The wallet/address endpoint (src/server/api/endpoints/wallet/address.ts) -/

/-- A site user, by id. -/
structure SiteUser where
  id : String
deriving DecidableEq

/-- Row of user_wallet_address as read by the endpoint. -/
structure UserWalletAddressRow where
  userId : String
  address : String
deriving DecidableEq

/-- The error of meta.errors used by the endpoint. -/
inductive ApiFail where
  | noSuchUser
deriving DecidableEq

/-- Target of the lookup: ps.userId when given, else the caller. -/
def walletTarget (meId : String) (psUserId : Option String) : String :=
  match psUserId with
  | some u => u
  | none => meId

/-- The wallet/address endpoint handler for an authenticated caller:
resolve the target user, throw noSuchUser when absent, otherwise return the
stored address when a row exists and the empty string otherwise. -/
def walletAddressEndpoint (users : List SiteUser) (rows : List UserWalletAddressRow)
    (meId : String) (psUserId : Option String) : Except ApiFail String :=
  match users.find? (fun u => u.id == walletTarget meId psUserId) with
  | none => Except.error ApiFail.noSuchUser
  | some u =>
    match rows.find? (fun r => r.userId == u.id) with
    | some w => Except.ok w.address
    | none => Except.ok ""

/-! ## Observations on states -/

/-- Cached balance of a user: the balance column of the user row, when a row
exists. -/
def balanceOf (db : Db) (u : String) : Option Rat :=
  (findBal db.bals u).map (fun r => r.balance)

/-- Ledger sum over a transaction list: the sum of the amount column over
the type-3 rows of a user (a missing amount, impossible on rows the handler
writes, counts as 0). -/
def creditsOfTxs (txs : List TxRow) (u : String) : Rat :=
  ((txs.filter (fun r => r.txtype == 3 && r.userId == some u)).map
    (fun r => (r.amount.getD 0))).sum

/-- Ledger sum of a user in a state. -/
def creditsOf (db : Db) (u : String) : Rat := creditsOfTxs db.txs u

/-- Every address row that names a user has a balance row for that user. -/
def Covered (db : Db) : Prop :=
  ∀ ar ∈ db.addrs, ∀ uid, ar.userId = some uid → (findBal db.bals uid).isSome = true

/-- The cached balances match the ledger: every balance row carries exactly
the sum of the type-3 amounts of its user. -/
def BalsMatchLedger (db : Db) : Prop :=
  ∀ br ∈ db.bals, br.balance = creditsOf db br.userId

/-! ## Concrete scenario inputs -/

/-- NOTIFY of end-to-end scenario 2: txid T1, 3 confirmations, one balance
entry of 150000000 smallest units at address A1. -/
def c4Payload : NotifyPayload := ⟨"T1", "X", 3, [("A1", "150000000")], "raw"⟩

/-- Prior state of scenario 2: user U1 owns address A1 with zero balance,
and the transaction table holds the given rows. -/
def c4State (pre : List TxRow) : Db :=
  ⟨pre, [], [⟨"A1", some "U1"⟩], [⟨"U1", 0⟩], []⟩

/-- An unconfirmed type-1 row for T1 with some prior confirmation count. -/
def c4Tx1Row (c : Int) : TxRow := ⟨none, "T1", "", 0, 1, c, false, false, none⟩

/-- Expected final state of scenario 2. -/
def c4Final : Db :=
  ⟨[⟨none, "T1", "", 0, 1, 3, true, true, none⟩,
    ⟨some "U1", "T1", "A1", 0, 3, 3, true, true, some (3 / 2 : Rat)⟩],
   [⟨"T1", "X", 3, some "U1", "raw", some "okay"⟩],
   [⟨"A1", some "U1"⟩], [⟨"U1", (3 / 2 : Rat)⟩], []⟩

/-- NOTIFY whose two credited addresses belong to the same user. -/
def c1Payload : NotifyPayload :=
  ⟨"T1", "X", 3, [("A1", "100000000"), ("A2", "200000000")], "raw"⟩

/-- State in which user U1 owns both credited addresses. -/
def c1State : Db :=
  ⟨[], [], [⟨"A1", some "U1"⟩, ⟨"A2", some "U1"⟩], [⟨"U1", 0⟩], []⟩

/-- NOTIFY for T1 with 5 confirmations and no balance entries. -/
def c2PayloadHigh : NotifyPayload := ⟨"T1", "X", 5, [], "raw"⟩

/-- NOTIFY for T1 with 2 confirmations and no balance entries. -/
def c2PayloadLow : NotifyPayload := ⟨"T1", "X", 2, [], "raw"⟩

/-- NOTIFY crediting user U5 who has no balance row. -/
def c5Payload : NotifyPayload := ⟨"T5", "X", 3, [("A5", "150000000")], "raw"⟩

/-- State mapping address A5 to user U5, with an empty balance table. -/
def c5State : Db := ⟨[], [], [⟨"A5", some "U5"⟩], [], []⟩

/-- NOTIFY crediting user U7 who has no balance row. -/
def c7Payload : NotifyPayload := ⟨"T7", "X", 3, [("A7", "150000000")], "raw"⟩

/-- State mapping address A7 to user U7, with an empty balance table. -/
def c7State : Db := ⟨[], [], [⟨"A7", some "U7"⟩], [], []⟩

/-- A heartbeat payload used for concrete runs. -/
def hbPayload : HeartbeatPayload := ⟨"X", true, true, false, 900, "H", 1700000000⟩

/-- A NOTIFY payload with 0 confirmations and no balances. -/
def notify0 : NotifyPayload := ⟨"T0", "X", 0, [], "raw"⟩

/-- A completed type-1 row for T1 at 5 confirmations. -/
def c1WitRow : TxRow := ⟨none, "T1", "", 0, 1, 5, true, true, none⟩

/-- A state holding only the completed row for T1. -/
def c1WitState : Db := ⟨[c1WitRow], [], [], [], []⟩

/-! # Lemmas and claim theorems -/

/-! ### Lemmas about the numeral value function -/

lemma valNatL_foldl_init (b : List Char) :
    ∀ init : Nat, b.foldl (fun a c => 10 * a + digitVal c) init
      = init * 10 ^ b.length + valNatL b := by
  induction b with
  | nil => intro init; simp [valNatL]
  | cons c b ih =>
    intro init
    have h1 := ih (10 * init + digitVal c)
    have h2 := ih (digitVal c)
    simp only [List.foldl_cons, List.length_cons]
    rw [h1]
    have : valNatL (c :: b) = (digitVal c) * 10 ^ b.length + valNatL b := by
      simp only [valNatL, List.foldl_cons]
      simpa using h2
    rw [this]
    ring

lemma valNatL_append (a b : List Char) :
    valNatL (a ++ b) = valNatL a * 10 ^ b.length + valNatL b := by
  simp only [valNatL, List.foldl_append]
  exact valNatL_foldl_init b _

lemma valNatL_replicate_zero (k : Nat) (s : List Char) :
    valNatL (List.replicate k '0' ++ s) = valNatL s := by
  induction k with
  | zero => simp
  | succ k ih =>
    have he : List.replicate (k + 1) '0' ++ s = '0' :: (List.replicate k '0' ++ s) := by
      simp [List.replicate_succ]
    have hz : 10 * 0 + digitVal '0' = 0 := by decide
    rw [he]
    unfold valNatL at ih ⊢
    rw [List.foldl_cons, hz]
    exact ih

/-! ### The padding loop builds the left-padded digit string -/

lemma padIter_spec (s : List Char) (p : Nat) :
    padIter s s.length p
      = if p ≤ s.length then s.take p else List.replicate (p - s.length) '0' ++ s := by
  induction p with
  | zero => simp [padIter]
  | succ p ih =>
    by_cases h : p < s.length
    · have hp : p ≤ s.length := Nat.le_of_lt h
      have hps : p + 1 ≤ s.length := h
      simp only [padIter, padStep, ih, if_pos hp, if_pos h, if_pos hps]
      have hget : s.getD p ' ' = s[p] := List.getD_eq_getElem s ' ' h
      rw [hget, ← List.take_concat_get s p h, List.concat_eq_append]
    · have hp : s.length ≤ p := Nat.le_of_not_lt h
      simp only [padIter, padStep, ih, if_neg h]
      by_cases he : p = s.length
      · subst he
        simp [List.take_length]
      · have hlt : s.length < p := Nat.lt_of_le_of_ne hp (fun e => he e.symm)
        have h1 : ¬ p ≤ s.length := Nat.not_le_of_lt hlt
        have h2 : ¬ p + 1 ≤ s.length := by omega
        simp only [if_neg h1, if_neg h2]
        have : p + 1 - s.length = (p - s.length) + 1 := by omega
        rw [this, List.replicate_succ]
        simp

/-! ### splitDot on well-formed decimals -/

lemma splitDot_append (i f : List Char) (hi : ∀ c ∈ i, (c != '.') = true) :
    splitDot (i ++ '.' :: f) = (i, f) := by
  induction i with
  | nil => simp [splitDot]
  | cons c i ih =>
    have hc : (c != '.') = true := hi c (List.mem_cons_self c i)
    have hrest : ∀ x ∈ i, (x != '.') = true := fun x hx => hi x (List.mem_cons_of_mem c hx)
    have hih := ih hrest
    simp only [splitDot, Prod.mk.injEq] at hih ⊢
    refine ⟨?_, ?_⟩ <;>
      simp [List.takeWhile_cons, List.dropWhile_cons, hc, hih.1, hih.2]

lemma isDigit_ne_dot (c : Char) (h : c.isDigit = true) : (c != '.') = true := by
  by_cases hc : c = '.'
  · subst hc
    exact absurd h (by decide)
  · simpa [bne_iff_ne] using hc

lemma parseL_long (cs : List Char) (p : Nat) (h : p < cs.length) :
    parseFromIntStringL cs p = cs.take (cs.length - p) ++ '.' :: cs.drop (cs.length - p) := by
  simp [parseFromIntStringL, if_pos h]

lemma parseL_short (cs : List Char) (p : Nat) (h : cs.length ≤ p) :
    parseFromIntStringL cs p = '0' :: '.' :: (List.replicate (p - cs.length) '0' ++ cs) := by
  have h' : ¬ p < cs.length := by omega
  simp only [parseFromIntStringL, if_neg h']
  rw [padIter_spec]
  by_cases he : p = cs.length
  · subst he
    simp [List.take_length]
  · have hx : ¬ p ≤ cs.length := by omega
    rw [if_neg hx]

lemma decL_value (cs : List Char) (p : Nat) (hd : ∀ c ∈ cs, c.isDigit = true) :
    decStrToRatL (parseFromIntStringL cs p) * (10 : Rat) ^ p = (valNatL cs : Rat) := by
  by_cases h : p < cs.length
  · rw [parseL_long cs p h]
    have hi : ∀ c ∈ cs.take (cs.length - p), (c != '.') = true :=
      fun c hc => isDigit_ne_dot c (hd c (List.mem_of_mem_take hc))
    simp only [decStrToRatL, splitDot_append _ _ hi]
    have hdl : (cs.drop (cs.length - p)).length = p := by
      rw [List.length_drop]; omega
    have happ := valNatL_append (cs.take (cs.length - p)) (cs.drop (cs.length - p))
    rw [List.take_append_drop, hdl] at happ
    have hpow : ((10 : Rat) ^ p) ≠ 0 := by positivity
    rw [hdl, happ]
    push_cast
    field_simp
  · have hle : cs.length ≤ p := by omega
    rw [parseL_short cs p hle]
    have hs : splitDot ('0' :: '.' :: (List.replicate (p - cs.length) '0' ++ cs))
        = ([('0' : Char)], List.replicate (p - cs.length) '0' ++ cs) := by
      have := splitDot_append [('0' : Char)] (List.replicate (p - cs.length) '0' ++ cs)
        (by decide)
      simpa using this
    simp only [decStrToRatL, hs]
    have hlen2 : (List.replicate (p - cs.length) '0' ++ cs).length = p := by
      simp; omega
    have hval : valNatL (List.replicate (p - cs.length) '0' ++ cs) = valNatL cs :=
      valNatL_replicate_zero _ _
    have h0 : valNatL [('0' : Char)] = 0 := by decide
    rw [hlen2, hval, h0]
    have hpow : ((10 : Rat) ^ p) ≠ 0 := by positivity
    push_cast
    field_simp

/-- Claim C6: parseFromIntString splits the integer string as the spec says
(integer part s[0 .. L-p] and fractional part s[L-p .. L] when L > p,
otherwise integer part 0 and the string left-padded with zeros to length p),
and the value of the returned decimal times 10 ^ p is the integer string. -/
theorem thm_c6 (s : String) (p : Nat) :
    (p < s.length → parseFromIntString s p
        = ((s.toList.take (s.length - p)) ++ '.' :: (s.toList.drop (s.length - p))).asString)
    ∧ (s.length ≤ p → parseFromIntString s p
        = ('0' :: '.' :: (List.replicate (p - s.length) '0' ++ s.toList)).asString)
    ∧ ((∀ c ∈ s.toList, c.isDigit = true) →
        decStrToRat (parseFromIntString s p) * (10 : Rat) ^ p = (valNat s : Rat)) := by
  refine ⟨?_, ?_, ?_⟩
  · intro h
    show (parseFromIntStringL s.toList p).asString = _
    rw [parseL_long s.toList p h]
    rfl
  · intro h
    show (parseFromIntStringL s.toList p).asString = _
    rw [parseL_short s.toList p h]
    rfl
  · intro hd
    show decStrToRatL ((parseFromIntStringL s.toList p).asString).toList * (10 : Rat) ^ p
        = (valNatL s.toList : Rat)
    exact decL_value s.toList p hd

/-- Witness for C6 at the concrete input of the end-to-end scenario:
150000000 at precision 8 reads back as the exact value 150000000. -/
theorem wit_c6 :
    (∀ c ∈ ("150000000" : String).toList, c.isDigit = true)
    ∧ decStrToRat (parseFromIntString "150000000" 8) * (10 : Rat) ^ 8
        = (valNat "150000000" : Rat) :=
  ⟨by decide, (thm_c6 "150000000" 8).2.2 (by decide)⟩


/-! ## The credited amount of the concrete scenarios -/

lemma amt150_eq : decStrToRat (parseFromIntString "150000000" 8) = 3 / 2 := by
  have h1 : parseFromIntString "150000000" 8 = "1.50000000" := rfl
  have h2 : (splitDot ("1.50000000" : String).toList).1 = ['1'] := rfl
  have h3 : (splitDot ("1.50000000" : String).toList).2
      = ['5', '0', '0', '0', '0', '0', '0', '0'] := rfl
  have h4 : valNatL ['1'] = 1 := rfl
  have h5 : valNatL ['5', '0', '0', '0', '0', '0', '0', '0'] = 50000000 := rfl
  rw [h1, decStrToRat, decStrToRatL, h2, h3, h4, h5]
  norm_num

/-! ## Claim C4: the threshold-crossing scenario -/

/-- Claim C4: from a prior state where U1 owns A1 with zero balance and T1
has at most an unconfirmed type-1 row, the NOTIFY with 3 confirmations and
one 150000000 balance entry completes the type-1 row (complete, processed,
confirms 3), leaves the job in state 3 for U1 with result okay, creates
exactly one type-3 row (T1, U1) of amount 3/2 (the decimal 1.50000000), and
sets the balance of U1 to 3/2. -/
theorem thm_c4 (pre : List TxRow) (hpre : pre = [] ∨ ∃ c : Int, pre = [c4Tx1Row c]) :
    notifyHandler c4Payload (c4State pre) = (c4Final, some "Recieved NOTIFY") := by
  rcases hpre with h | ⟨c, h⟩ <;> subst h <;>
    simp [notifyHandler, notifyAfter, notifyCredit, jobeAfter, ensureJob, createJobCond,
      c4State, c4Payload, c4Tx1Row, c4Final, amt150_eq, jobExists,
      txCompleteOf, findTx, ensureTx, setConfirms, finalizeTx, collectLoop, creditLoop,
      upsertAttr, findAddr, findBal, promoteJobs, addBal, mkJob0, mkCredit, mkTx1]

/-- Witness for C4 at the empty prior transaction table. -/
theorem wit_c4 : notifyHandler c4Payload (c4State []) = (c4Final, some "Recieved NOTIFY") :=
  thm_c4 [] (Or.inl rfl)

/-! ## Claim C7: crediting a user with no balance row -/

/-- Claim C7 (the code slip): when the credited user has no balance row the
handler does not create one; it inserts the type-3 row, then throws reading
the balance of an undefined lookup, so no reply is sent, the balance table
stays empty, and the credit is never applied. -/
theorem thm_c7_bug :
    (notifyHandler c7Payload c7State).2 = none
    ∧ (notifyHandler c7Payload c7State).1.bals = []
    ∧ ((notifyHandler c7Payload c7State).1.txs.filter (fun r => r.txtype == 3)).length = 1 := by
  refine ⟨by decide, by decide, by decide⟩

/-! ## Claim C8: heartbeat upsert -/

lemma statusUpdateRow_matched (p : HeartbeatPayload) (now : Int) (r : StatusRow)
    (h : r.type = p.coin) : statusUpdateRow p now r = mkStatus p now := by
  cases r
  simp_all [statusUpdateRow, mkStatus]

lemma statusUpdateRow_other (p : HeartbeatPayload) (now : Int) (r : StatusRow)
    (h : ¬ r.type = p.coin) : statusUpdateRow p now r = r := by
  simp [statusUpdateRow, h]

lemma filter_statusMap (p : HeartbeatPayload) (now : Int) (l : List StatusRow) :
    ((l.map (statusUpdateRow p now)).filter (fun r => r.type == p.coin))
    = List.replicate ((l.filter (fun r => r.type == p.coin)).length) (mkStatus p now) := by
  induction l with
  | nil => rfl
  | cons r l ih =>
    by_cases hr : r.type = p.coin
    · have h1 := statusUpdateRow_matched p now r hr
      have h2 : ((mkStatus p now).type == p.coin) = true := by simp [mkStatus]
      have h3 : (r.type == p.coin) = true := by simpa using hr
      simp only [List.map_cons, List.filter_cons, h1, h2, h3, if_true, List.length_cons,
        List.replicate_succ]
      rw [ih]
    · have h1 := statusUpdateRow_other p now r hr
      have h3 : (r.type == p.coin) = false := by simpa using hr
      simp only [List.map_cons, List.filter_cons, h1, h3, Bool.false_eq_true, if_false]
      exact ih

lemma heartbeat_upsert (p : HeartbeatPayload) (now : Int) (s : Db)
    (h : (s.statuses.filter (fun r => r.type == p.coin)).length ≤ 1) :
    (heartbeatHandler p now s).1.statuses.filter (fun r => r.type == p.coin)
      = [mkStatus p now] := by
  unfold heartbeatHandler
  by_cases hany : s.statuses.any (fun r => r.type == p.coin) = true
  · simp only [hany, if_true]
    rw [filter_statusMap]
    have hpos : 0 < (s.statuses.filter (fun r => r.type == p.coin)).length := by
      rcases List.any_eq_true.mp hany with ⟨a, ha, hpa⟩
      exact List.length_pos_of_mem (List.mem_filter.mpr ⟨ha, hpa⟩)
    have hlen : (s.statuses.filter (fun r => r.type == p.coin)).length = 1 :=
      Nat.le_antisymm h hpos
    rw [hlen]
    rfl
  · have hany' : s.statuses.any (fun r => r.type == p.coin) = false := by
      simpa using hany
    simp only [hany', Bool.false_eq_true, if_false]
    rw [List.filter_append]
    have hnil : s.statuses.filter (fun r => r.type == p.coin) = [] := by
      rw [List.filter_eq_nil_iff]
      intro a ha
      have := List.any_eq_false.mp hany' a ha
      simpa using this
    have hmk : ((mkStatus p now).type == p.coin) = true := by
      simp [mkStatus]
    simp [hnil, hmk]

/-- Claim C8: a HEARTBEAT upserts the single status row of its coin, setting
every field and updatedAt to now; two heartbeats for the same coin leave
exactly one row carrying the values of the second one. -/
theorem thm_c8 (s : Db) (p q : HeartbeatPayload) (t u : Int)
    (hcount : (s.statuses.filter (fun r => r.type == p.coin)).length ≤ 1)
    (hq : q.coin = p.coin) :
    ((heartbeatHandler p t s).1.statuses.filter (fun r => r.type == p.coin)
        = [mkStatus p t])
    ∧ ((heartbeatHandler q u (heartbeatHandler p t s).1).1.statuses.filter
        (fun r => r.type == p.coin) = [mkStatus q u]) := by
  have h1 := heartbeat_upsert p t s hcount
  refine ⟨h1, ?_⟩
  have hc2 : (((heartbeatHandler p t s).1.statuses.filter
      (fun r => r.type == q.coin)).length ≤ 1) := by
    rw [hq, h1]
    simp
  have h2 := heartbeat_upsert q u (heartbeatHandler p t s).1 hc2
  rw [hq] at h2
  exact h2

/-- Witness for C8: two concrete heartbeats for coin X on the empty state. -/
theorem wit_c8 :
    ((heartbeatHandler hbPayload 5 emptyDb).1.statuses.filter
        (fun r => r.type == hbPayload.coin) = [mkStatus hbPayload 5])
    ∧ ((heartbeatHandler ⟨"X", true, true, true, 901, "H2", 1700000100⟩ 6
          (heartbeatHandler hbPayload 5 emptyDb).1).1.statuses.filter
        (fun r => r.type == hbPayload.coin)
          = [mkStatus ⟨"X", true, true, true, 901, "H2", 1700000100⟩ 6]) :=
  thm_c8 emptyDb hbPayload ⟨"X", true, true, true, 901, "H2", 1700000100⟩ 5 6
    (by decide) rfl

/-! ## Claim C9: the reply strings -/

/-- Counterexample for C9: the source replies the misspelled string, which is
not the string the claim requires. -/
theorem cex_c9 :
    (heartbeatHandler hbPayload 0 emptyDb).2 = "Recieved HEARTBEAT"
    ∧ ("Recieved HEARTBEAT" : String) ≠ "Received HEARTBEAT" := by
  refine ⟨rfl, by decide⟩

/-- Claim C9 as amended: every HEARTBEAT reply is exactly the string
Recieved HEARTBEAT, and every NOTIFY that replies at all replies exactly the
string Recieved NOTIFY (both misspell Received, and a NOTIFY that throws in
the credit loop sends no reply). -/
theorem thm_c9_amended :
    (∀ (p : HeartbeatPayload) (now : Int) (s : Db),
        (heartbeatHandler p now s).2 = "Recieved HEARTBEAT")
    ∧ (∀ (p : NotifyPayload) (s : Db) (r : String),
        (notifyHandler p s).2 = some r → r = "Recieved NOTIFY") := by
  constructor
  · intro p now s
    cases hany : s.statuses.any (fun r => r.type == p.coin) <;>
      simp [heartbeatHandler, hany]
  · intro p s r h
    unfold notifyHandler notifyAfter at h
    split at h
    · exact (Option.some.inj h).symm
    · split at h
      · split at h
        · exact (Option.some.inj h).symm
        · simp at h
      · exact (Option.some.inj h).symm

/-- Witness for C9 as amended, at a concrete NOTIFY that replies. -/
theorem wit_c9 :
    (notifyHandler notify0 emptyDb).2 = some "Recieved NOTIFY"
    ∧ ("Recieved NOTIFY" : String) = "Recieved NOTIFY" :=
  ⟨by decide, thm_c9_amended.2 notify0 emptyDb "Recieved NOTIFY" (by decide)⟩

/-! ## Claim C10: the wallet/address endpoint -/

/-- Claim C10: with an authenticated caller, a missing target user yields the
noSuchUser error; otherwise the endpoint returns the stored address when a
wallet-address row exists for the user and the empty string when none does. -/
theorem thm_c10 (users : List SiteUser) (rows : List UserWalletAddressRow)
    (meId : String) (psUserId : Option String) :
    (users.find? (fun u => u.id == walletTarget meId psUserId) = none →
      walletAddressEndpoint users rows meId psUserId = Except.error ApiFail.noSuchUser)
    ∧ (∀ u, users.find? (fun v => v.id == walletTarget meId psUserId) = some u →
        (∀ w, rows.find? (fun r => r.userId == u.id) = some w →
          walletAddressEndpoint users rows meId psUserId = Except.ok w.address)
        ∧ (rows.find? (fun r => r.userId == u.id) = none →
          walletAddressEndpoint users rows meId psUserId = Except.ok "")) := by
  refine ⟨?_, ?_⟩
  · intro h
    simp [walletAddressEndpoint, h]
  · intro u hu
    refine ⟨?_, ?_⟩
    · intro w hw
      simp [walletAddressEndpoint, hu, hw]
    · intro h
      simp [walletAddressEndpoint, hu, h]

/-- Witness for C10: concrete lookups for the three behaviors. -/
theorem wit_c10 :
    walletAddressEndpoint [⟨"U1"⟩] [⟨"U1", "ADDR"⟩] "U1" none = Except.ok "ADDR" :=
  ((thm_c10 [⟨"U1"⟩] [⟨"U1", "ADDR"⟩] "U1" none).2 ⟨"U1"⟩ (by decide)).1
    ⟨"U1", "ADDR"⟩ (by decide)

/-! ## Counterexamples for C1, C2 and C5 -/

/-- Counterexample for C1: one NOTIFY crediting two addresses of the same
user inserts two type-3 rows for the same (txid, userId) pair, and nothing
is aborted. -/
theorem cex_c1 :
    ((notifyDb c1Payload c1State).txs.filter
      (fun r => r.txtype == 3 && r.userId == some "U1" && r.txid == "T1")).length = 2
    ∧ (notifyHandler c1Payload c1State).2 = some "Recieved NOTIFY" := by
  refine ⟨by decide, by decide⟩

/-- Counterexample for C2: delivering 5 confirmations and then 2 leaves
confirms at 2, not at the maximum 5. -/
theorem cex_c2 :
    ((findTx (notifyDb c2PayloadLow (notifyDb c2PayloadHigh emptyDb)).txs "T1").map
      (fun r => r.confirms)) = some 2
    ∧ (2 : Int) ≠ 5 := by
  refine ⟨by decide, by decide⟩

/-- Counterexample for C5: crediting a user with no balance row inserts the
type-3 ledger row and then throws before any balance write, so the cached
balance (absent) does not equal the ledger sum 3/2. -/
theorem cex_c5 :
    balanceOf (notifyDb c5Payload c5State) "U5" = none
    ∧ creditsOf (notifyDb c5Payload c5State) "U5" = 3 / 2 := by
  constructor
  · decide
  · simp [creditsOf, creditsOfTxs, notifyDb, notifyHandler, notifyAfter, notifyCredit,
      jobeAfter, ensureJob, createJobCond, c5State, c5Payload, jobExists, txCompleteOf,
      findTx, ensureTx, setConfirms, finalizeTx, collectLoop, creditLoop, upsertAttr,
      findAddr, findBal, promoteJobs, addBal, mkJob0, mkCredit, mkTx1, amt150_eq]

/-! ## Structural lemmas about the handler pieces -/

lemma isSome_map_eq {α β : Type} (f : α → β) (o : Option α) :
    (o.map f).isSome = o.isSome := by
  cases o <;> rfl

lemma find?_map_pres {α : Type} (g : α → α) (p : α → Bool)
    (hg : ∀ a, p (g a) = p a) (l : List α) :
    (l.map g).find? p = (l.find? p).map g := by
  induction l with
  | nil => rfl
  | cons a l ih =>
    cases hpa : p a
    · simp [List.find?_cons, hg, hpa, ih]
    · simp [List.find?_cons, hg, hpa]

lemma filter_map_pres {α : Type} (g : α → α) (p : α → Bool)
    (hg : ∀ a, p (g a) = p a) (l : List α) :
    (l.map g).filter p = (l.filter p).map g := by
  induction l with
  | nil => rfl
  | cons a l ih =>
    cases hpa : p a
    · simp [List.filter_cons, hg, hpa, ih]
    · simp [List.filter_cons, hg, hpa, ih]

lemma setConfirms_pres (t : String) (c : Int) (a : TxRow) :
    ((if a.txid == t then { a with confirms := c } else a).txid == t) = (a.txid == t) := by
  by_cases h : (a.txid == t) = true <;> simp [h]

lemma finalizeTx_pres (t : String) (c : Int) (a : TxRow) :
    ((if a.txid == t then
        { a with confirms := c, complete := decide (3 ≤ c), processed := true }
      else a).txid == t) = (a.txid == t) := by
  by_cases h : (a.txid == t) = true <;> simp [h]

lemma findTx_setConfirms (txs : List TxRow) (t : String) (c : Int) :
    findTx (setConfirms txs t c) t
      = (findTx txs t).map (fun r => if r.txid == t then { r with confirms := c } else r) :=
  find?_map_pres _ _ (setConfirms_pres t c) txs

lemma findTx_finalizeTx (txs : List TxRow) (t : String) (c : Int) :
    findTx (finalizeTx txs t c) t
      = (findTx txs t).map (fun r => if r.txid == t then
          { r with confirms := c, complete := decide (3 ≤ c), processed := true } else r) :=
  find?_map_pres _ _ (finalizeTx_pres t c) txs

lemma mem_setConfirms (txs : List TxRow) (t : String) (c : Int) (r : TxRow)
    (hr : r ∈ setConfirms txs t c) (ht : (r.txid == t) = true) : r.confirms = c := by
  rcases List.mem_map.mp hr with ⟨r0, hr0, heq⟩
  by_cases h0 : (r0.txid == t) = true
  · rw [if_pos h0] at heq
    rw [← heq]
  · rw [if_neg h0] at heq
    rw [← heq] at ht
    exact absurd ht h0

lemma mem_finalizeTx (txs : List TxRow) (t : String) (c : Int) (r : TxRow)
    (hr : r ∈ finalizeTx txs t c) (ht : (r.txid == t) = true) :
    r.confirms = c ∧ r.complete = decide (3 ≤ c) := by
  rcases List.mem_map.mp hr with ⟨r0, hr0, heq⟩
  by_cases h0 : (r0.txid == t) = true
  · rw [if_pos h0] at heq
    rw [← heq]
    exact ⟨rfl, rfl⟩
  · rw [if_neg h0] at heq
    rw [← heq] at ht
    exact absurd ht h0

lemma setConfirms_id (txs : List TxRow) (t : String) (c : Int)
    (h : ∀ r ∈ txs, (r.txid == t) = true → r.confirms = c) :
    setConfirms txs t c = txs := by
  induction txs with
  | nil => rfl
  | cons r l ih =>
    simp only [setConfirms, List.map_cons]
    have htail : (setConfirms l t c) = l :=
      ih (fun x hx => h x (List.mem_cons_of_mem _ hx))
    simp only [setConfirms] at htail
    rw [htail]
    by_cases h0 : (r.txid == t) = true
    · have hc := h r (List.mem_cons_self r l) h0
      rw [if_pos h0, ← hc]
    · rw [if_neg h0]

lemma jobExists_promote (jobs : List JobRow) (t : String) (uid : String) (x : String) :
    jobExists (promoteJobs jobs t uid) x = jobExists jobs x := by
  unfold jobExists promoteJobs
  rw [find?_map_pres _ _ (fun j => ?_) jobs, isSome_map_eq]
  by_cases h : (j.job == t) = true <;> simp [h]

lemma jobExists_append_mono (jobs : List JobRow) (j : JobRow) (x : String)
    (h : jobExists jobs x = true) : jobExists (jobs ++ [j]) x = true := by
  unfold jobExists at h ⊢
  rw [List.find?_append]
  rcases Option.isSome_iff_exists.mp h with ⟨a, ha⟩
  simp [ha]

/-! ### The collect loop -/

lemma collect_fields (p : NotifyPayload) (jb : Bool) :
    ∀ (l : List (String × String)) (db : Db) (us : List (String × String × String)),
      (collectLoop p jb l db us).1.txs = db.txs
      ∧ (collectLoop p jb l db us).1.bals = db.bals
      ∧ (collectLoop p jb l db us).1.addrs = db.addrs
      ∧ (collectLoop p jb l db us).1.statuses = db.statuses := by
  intro l
  induction l with
  | nil => intro db us; exact ⟨rfl, rfl, rfl, rfl⟩
  | cons ab rest ih =>
    intro db us
    obtain ⟨a, b⟩ := ab
    cases hfa : findAddr db.addrs a with
    | none => simpa [collectLoop, hfa] using ih db us
    | some ar =>
      cases hu : ar.userId with
      | none => simpa [collectLoop, hfa, hu] using ih db us
      | some uid =>
        cases jb <;> simp only [collectLoop, hfa, hu, Bool.false_eq_true, if_false, if_true] <;>
          exact ih _ _

lemma collect_jobs_mono (p : NotifyPayload) (jb : Bool) :
    ∀ (l : List (String × String)) (db : Db) (us : List (String × String × String))
      (x : String), jobExists db.jobs x = true →
      jobExists (collectLoop p jb l db us).1.jobs x = true := by
  intro l
  induction l with
  | nil => intro db us x h; exact h
  | cons ab rest ih =>
    intro db us x h
    obtain ⟨a, b⟩ := ab
    cases hfa : findAddr db.addrs a with
    | none => simpa [collectLoop, hfa] using ih db us x h
    | some ar =>
      cases hu : ar.userId with
      | none => simpa [collectLoop, hfa, hu] using ih db us x h
      | some uid =>
        cases jb
        · simp only [collectLoop, hfa, hu, Bool.false_eq_true, if_false]
          exact ih _ _ x (jobExists_append_mono _ _ _ h)
        · simp only [collectLoop, hfa, hu, if_true]
          refine ih _ _ x ?_
          show jobExists (promoteJobs db.jobs p.txid uid) x = true
          rw [jobExists_promote]
          exact h

lemma upsert_mem (us : List (String × String × String)) (a uid b : String) :
    ∀ e ∈ upsertAttr us a uid b, e ∈ us ∨ e = (a, uid, b) := by
  intro e he
  unfold upsertAttr at he
  by_cases hc : us.any (fun e => e.1 == a) = true
  · rw [if_pos hc] at he
    rcases List.mem_map.mp he with ⟨e0, he0, heq⟩
    by_cases h0 : (e0.1 == a) = true
    · rw [if_pos h0] at heq
      exact Or.inr heq.symm
    · rw [if_neg h0] at heq
      exact Or.inl (heq ▸ he0)
  · rw [if_neg hc] at he
    rcases List.mem_append.mp he with h | h
    · exact Or.inl h
    · exact Or.inr (List.mem_singleton.mp h)

lemma collect_attr (p : NotifyPayload) (jb : Bool) :
    ∀ (l : List (String × String)) (db : Db) (us : List (String × String × String)),
      (∀ e ∈ us, ∃ ar ∈ db.addrs, ar.userId = some e.2.1) →
      ∀ e ∈ (collectLoop p jb l db us).2, ∃ ar ∈ db.addrs, ar.userId = some e.2.1 := by
  intro l
  induction l with
  | nil => intro db us h; exact h
  | cons ab rest ih =>
    intro db us h
    obtain ⟨a, b⟩ := ab
    cases hfa : findAddr db.addrs a with
    | none =>
      intro e he
      simp only [collectLoop, hfa] at he
      exact ih db us h e he
    | some ar =>
      have harmem : ar ∈ db.addrs := List.mem_of_find?_eq_some hfa
      cases hu : ar.userId with
      | none =>
        intro e he
        simp only [collectLoop, hfa, hu] at he
        exact ih db us h e he
      | some uid =>
        have hus2 : ∀ e ∈ upsertAttr us ar.address uid b,
            ∃ a2 ∈ db.addrs, a2.userId = some e.2.1 := by
          intro e he
          rcases upsert_mem us ar.address uid b e he with h0 | h0
          · exact h e h0
          · exact ⟨ar, harmem, by rw [h0, hu]⟩
        intro e he
        cases jb
        · simp only [collectLoop, hfa, hu, Bool.false_eq_true, if_false] at he
          exact ih { db with jobs := db.jobs ++ [mkJob3 p uid] }
            (upsertAttr us ar.address uid b) hus2 e he
        · simp only [collectLoop, hfa, hu, if_true] at he
          exact ih { db with jobs := promoteJobs db.jobs p.txid uid }
            (upsertAttr us ar.address uid b) hus2 e he


/-! ### The credit loop -/

lemma credit_fields (p : NotifyPayload) :
    ∀ (l : List (String × String × String)) (db : Db),
      (creditLoop p l db).1.jobs = db.jobs
      ∧ (creditLoop p l db).1.addrs = db.addrs
      ∧ (creditLoop p l db).1.statuses = db.statuses := by
  intro l
  induction l with
  | nil => intro db; exact ⟨rfl, rfl, rfl⟩
  | cons e rest ih =>
    intro db
    obtain ⟨a, uid, bstr⟩ := e
    cases hfb : findBal (db.bals) uid with
    | none => simp [creditLoop, hfb]
    | some br => simpa [creditLoop, hfb] using ih _

lemma credit_txs_mem (p : NotifyPayload) :
    ∀ (l : List (String × String × String)) (db : Db),
      ∀ r ∈ (creditLoop p l db).1.txs, r ∈ db.txs
        ∨ (r.txtype = 3 ∧ r.txid = p.txid ∧ r.complete = true
            ∧ r.confirms = p.confirmations) := by
  intro l
  induction l with
  | nil => intro db r hr; exact Or.inl hr
  | cons e rest ih =>
    intro db r hr
    obtain ⟨a, uid, bstr⟩ := e
    cases hfb : findBal (db.bals) uid with
    | none =>
      simp only [creditLoop, hfb] at hr
      rcases List.mem_append.mp hr with h | h
      · exact Or.inl h
      · rw [List.mem_singleton.mp h]
        exact Or.inr ⟨rfl, rfl, rfl, rfl⟩
    | some br =>
      simp only [creditLoop, hfb] at hr
      rcases ih _ r hr with h | h
      · rcases List.mem_append.mp h with h2 | h2
        · exact Or.inl h2
        · rw [List.mem_singleton.mp h2]
          exact Or.inr ⟨rfl, rfl, rfl, rfl⟩
      · exact Or.inr h

lemma credit_txs_sub (p : NotifyPayload) :
    ∀ (l : List (String × String × String)) (db : Db),
      ∀ r ∈ db.txs, r ∈ (creditLoop p l db).1.txs := by
  intro l
  induction l with
  | nil => intro db r hr; exact hr
  | cons e rest ih =>
    intro db r hr
    obtain ⟨a, uid, bstr⟩ := e
    cases hfb : findBal (db.bals) uid with
    | none =>
      simp only [creditLoop, hfb]
      exact List.mem_append.mpr (Or.inl hr)
    | some br =>
      simp only [creditLoop, hfb]
      exact ih _ r (List.mem_append.mpr (Or.inl hr))

lemma addBal_pres (uid : String) (amt : Rat) (a : BalRow) (u : String) :
    ((if a.userId == uid then { a with balance := a.balance + amt } else a).userId == u)
      = (a.userId == u) := by
  by_cases h : (a.userId == uid) = true <;> simp [h]

lemma credit_balkeys (p : NotifyPayload) :
    ∀ (l : List (String × String × String)) (db : Db) (u : String),
      (findBal (creditLoop p l db).1.bals u).isSome = (findBal db.bals u).isSome := by
  intro l
  induction l with
  | nil => intro db u; rfl
  | cons e rest ih =>
    intro db u
    obtain ⟨a, uid, bstr⟩ := e
    cases hfb : findBal (db.bals) uid with
    | none => simp [creditLoop, hfb]
    | some br =>
      simp only [creditLoop, hfb]
      rw [ih]
      show (findBal (addBal db.bals uid _) u).isSome = _
      unfold findBal addBal
      rw [find?_map_pres _ _ (fun a => addBal_pres uid _ a u) db.bals, isSome_map_eq]

/-! ### Equation lemmas for the handler stages -/

lemma notifyCredit_eq (p : NotifyPayload) (jb : Bool) (db2 : Db) :
    notifyCredit p jb db2
      = creditLoop p (collectLoop p jb p.balances db2 []).2
          { (collectLoop p jb p.balances db2 []).1 with
            txs := finalizeTx (collectLoop p jb p.balances db2 []).1.txs
              p.txid p.confirmations } := rfl

lemma notifyAfter_eq_none (p : NotifyPayload) (jb : Bool) (db2 : Db)
    (h : findTx db2.txs p.txid = none) :
    notifyAfter p jb db2 = (db2, some "Recieved NOTIFY") := by
  unfold notifyAfter
  rw [h]

lemma notifyAfter_eq_skip (p : NotifyPayload) (jb : Bool) (db2 : Db) (tx : TxRow)
    (h : findTx db2.txs p.txid = some tx)
    (hc : (!tx.complete && decide (3 ≤ p.confirmations)) = false) :
    notifyAfter p jb db2 = (db2, some "Recieved NOTIFY") := by
  unfold notifyAfter
  rw [h]
  show (if (!tx.complete && decide (3 ≤ p.confirmations)) = true then _ else _) = _
  rw [if_neg (by simp [hc])]

lemma notifyAfter_eq_credit (p : NotifyPayload) (jb : Bool) (db2 : Db) (tx : TxRow)
    (h : findTx db2.txs p.txid = some tx)
    (hc : (!tx.complete && decide (3 ≤ p.confirmations)) = true) :
    notifyAfter p jb db2
      = ((notifyCredit p jb db2).1,
          if (notifyCredit p jb db2).2 then some "Recieved NOTIFY" else none) := by
  unfold notifyAfter
  rw [h]
  show (if (!tx.complete && decide (3 ≤ p.confirmations)) = true then _ else _) = _
  rw [if_pos hc]

lemma ensureJob_fields (p : NotifyPayload) (db : Db) :
    (ensureJob p db).txs = db.txs ∧ (ensureJob p db).bals = db.bals
    ∧ (ensureJob p db).addrs = db.addrs ∧ (ensureJob p db).statuses = db.statuses := by
  unfold ensureJob
  split <;> exact ⟨rfl, rfl, rfl, rfl⟩

lemma ensureTx_fields (p : NotifyPayload) (db : Db) :
    (ensureTx p db).jobs = db.jobs ∧ (ensureTx p db).bals = db.bals
    ∧ (ensureTx p db).addrs = db.addrs ∧ (ensureTx p db).statuses = db.statuses := by
  unfold ensureTx
  split <;> exact ⟨rfl, rfl, rfl, rfl⟩

lemma isSome_false_eq_none {α : Type} (o : Option α) (h : ¬ o.isSome = true) : o = none := by
  cases o
  · rfl
  · simp at h

lemma ensureTx_conf (p : NotifyPayload) (db : Db) :
    ∀ r ∈ (ensureTx p db).txs, (r.txid == p.txid) = true → r.confirms = p.confirmations := by
  intro r hr ht
  unfold ensureTx at hr
  by_cases h : (findTx db.txs p.txid).isSome = true
  · rw [if_pos h] at hr
    exact mem_setConfirms _ _ _ r hr ht
  · rw [if_neg h] at hr
    rcases List.mem_append.mp hr with h2 | h2
    · have hnone : findTx db.txs p.txid = none := isSome_false_eq_none _ h
      unfold findTx at hnone
      exact absurd ht (List.find?_eq_none.mp hnone r h2)
    · rw [List.mem_singleton.mp h2]
      rfl

lemma ensureTx_isSome (p : NotifyPayload) (db : Db) :
    (findTx (ensureTx p db).txs p.txid).isSome = true := by
  unfold ensureTx
  by_cases h : (findTx db.txs p.txid).isSome = true
  · rw [if_pos h]
    show (findTx (setConfirms db.txs p.txid p.confirmations) p.txid).isSome = true
    rw [findTx_setConfirms, isSome_map_eq]
    exact h
  · rw [if_neg h]
    show (findTx (db.txs ++ [mkTx1 p]) p.txid).isSome = true
    have hnone : findTx db.txs p.txid = none := isSome_false_eq_none _ h
    unfold findTx at hnone ⊢
    rw [List.find?_append, hnone]
    simp [List.find?_cons, mkTx1]

/-! ### Postconditions of one NOTIFY delivery -/

lemma notifyAfter_conf (p : NotifyPayload) (jb : Bool) (db2 : Db)
    (hconf : ∀ r ∈ db2.txs, (r.txid == p.txid) = true → r.confirms = p.confirmations) :
    ∀ r ∈ (notifyAfter p jb db2).1.txs, (r.txid == p.txid) = true →
      r.confirms = p.confirmations := by
  intro r hr ht
  cases hf : findTx db2.txs p.txid with
  | none =>
    rw [notifyAfter_eq_none p jb db2 hf] at hr
    exact hconf r hr ht
  | some tx =>
    by_cases hb : (!tx.complete && decide (3 ≤ p.confirmations)) = true
    · rw [notifyAfter_eq_credit p jb db2 tx hf hb] at hr
      have hr' : r ∈ (creditLoop p (collectLoop p jb p.balances db2 []).2
          { (collectLoop p jb p.balances db2 []).1 with
            txs := finalizeTx (collectLoop p jb p.balances db2 []).1.txs
              p.txid p.confirmations }).1.txs := hr
      rcases credit_txs_mem p _ _ r hr' with h | h
      · have h2 : r ∈ finalizeTx (collectLoop p jb p.balances db2 []).1.txs
            p.txid p.confirmations := h
        rw [(collect_fields p jb p.balances db2 []).1] at h2
        exact (mem_finalizeTx _ _ _ r h2 ht).1
      · exact h.2.2.2
    · have hbf : (!tx.complete && decide (3 ≤ p.confirmations)) = false := by
        simpa using hb
      rw [notifyAfter_eq_skip p jb db2 tx hf hbf] at hr
      exact hconf r hr ht

lemma notify_post_conf (p : NotifyPayload) (s : Db) :
    ∀ r ∈ (notifyDb p s).txs, (r.txid == p.txid) = true →
      r.confirms = p.confirmations := by
  have h2 := ensureTx_conf p (ensureJob p s)
  exact notifyAfter_conf p (jobeAfter p s) (ensureTx p (ensureJob p s)) h2

lemma findTx_some_pred (txs : List TxRow) (t : String) (r : TxRow)
    (h : findTx txs t = some r) : (r.txid == t) = true := by
  unfold findTx at h
  exact @List.find?_some TxRow (fun x => x.txid == t) r txs h

lemma findTx_some_mem (txs : List TxRow) (t : String) (r : TxRow)
    (h : findTx txs t = some r) : r ∈ txs := by
  unfold findTx at h
  exact List.mem_of_find?_eq_some h

lemma notifyAfter_isSome (p : NotifyPayload) (jb : Bool) (db2 : Db)
    (h : (findTx db2.txs p.txid).isSome = true) :
    (findTx (notifyAfter p jb db2).1.txs p.txid).isSome = true := by
  cases hf : findTx db2.txs p.txid with
  | none =>
    rw [hf] at h
    simp at h
  | some tx =>
    by_cases hb : (!tx.complete && decide (3 ≤ p.confirmations)) = true
    · rw [notifyAfter_eq_credit p jb db2 tx hf hb]
      have h4 : (findTx (finalizeTx (collectLoop p jb p.balances db2 []).1.txs
          p.txid p.confirmations) p.txid).isSome = true := by
        rw [findTx_finalizeTx, (collect_fields p jb p.balances db2 []).1, hf]
        rfl
      unfold findTx at h4
      rcases (List.find?_isSome).mp h4 with ⟨r4, hr4, hp4⟩
      have hmem : r4 ∈ (creditLoop p (collectLoop p jb p.balances db2 []).2
          { (collectLoop p jb p.balances db2 []).1 with
            txs := finalizeTx (collectLoop p jb p.balances db2 []).1.txs
              p.txid p.confirmations }).1.txs :=
        credit_txs_sub p _ _ r4 hr4
      show (List.find? (fun r => r.txid == p.txid) (notifyCredit p jb db2).1.txs).isSome
          = true
      exact (List.find?_isSome).mpr ⟨r4, hmem, hp4⟩
    · have hbf : (!tx.complete && decide (3 ≤ p.confirmations)) = false := by
        simpa using hb
      rw [notifyAfter_eq_skip p jb db2 tx hf hbf]
      exact h

lemma notify_post_txe (p : NotifyPayload) (s : Db) :
    (findTx (notifyDb p s).txs p.txid).isSome = true :=
  notifyAfter_isSome p (jobeAfter p s) (ensureTx p (ensureJob p s))
    (ensureTx_isSome p (ensureJob p s))

lemma notifyAfter_jobs_pres (p : NotifyPayload) (jb : Bool) (db2 : Db) (x : String)
    (h : jobExists db2.jobs x = true) :
    jobExists (notifyAfter p jb db2).1.jobs x = true := by
  cases hf : findTx db2.txs p.txid with
  | none =>
    rw [notifyAfter_eq_none p jb db2 hf]
    exact h
  | some tx =>
    by_cases hb : (!tx.complete && decide (3 ≤ p.confirmations)) = true
    · rw [notifyAfter_eq_credit p jb db2 tx hf hb]
      show jobExists (creditLoop p (collectLoop p jb p.balances db2 []).2
          { (collectLoop p jb p.balances db2 []).1 with
            txs := finalizeTx (collectLoop p jb p.balances db2 []).1.txs
              p.txid p.confirmations }).1.jobs x = true
      rw [(credit_fields p _ _).1]
      show jobExists (collectLoop p jb p.balances db2 []).1.jobs x = true
      exact collect_jobs_mono p jb p.balances db2 [] x h
    · have hbf : (!tx.complete && decide (3 ≤ p.confirmations)) = false := by
        simpa using hb
      rw [notifyAfter_eq_skip p jb db2 tx hf hbf]
      exact h

lemma ensureJob_jobs_mono (p : NotifyPayload) (db : Db) (x : String)
    (h : jobExists db.jobs x = true) : jobExists (ensureJob p db).jobs x = true := by
  unfold ensureJob
  split
  · exact jobExists_append_mono _ _ _ h
  · exact h

lemma ensureJob_jobs_self (p : NotifyPayload) (db : Db)
    (h : createJobCond p db = true) : jobExists (ensureJob p db).jobs p.txid = true := by
  unfold ensureJob
  rw [if_pos h]
  show jobExists (db.jobs ++ [mkJob0 p]) p.txid = true
  unfold jobExists
  rw [List.find?_append]
  cases hj : List.find? (fun j => j.job == p.txid) db.jobs
  · simp [List.find?_cons, mkJob0]
  · simp [hj]

lemma notify_post_job (p : NotifyPayload) (s : Db) :
    jobExists (notifyDb p s).jobs p.txid = true
    ∨ txCompleteOf (notifyDb p s).txs p.txid = true
    ∨ ¬ (0 ≤ p.confirmations) := by
  by_cases hcjc : createJobCond p s = true
  · left
    apply notifyAfter_jobs_pres
    have h1 : jobExists (ensureJob p s).jobs p.txid = true := ensureJob_jobs_self p s hcjc
    rw [(ensureTx_fields p (ensureJob p s)).1]
    exact h1
  · by_cases h1 : jobExists s.jobs p.txid = true
    · left
      apply notifyAfter_jobs_pres
      rw [(ensureTx_fields p (ensureJob p s)).1]
      exact ensureJob_jobs_mono p s p.txid h1
    · by_cases h2 : txCompleteOf s.txs p.txid = true
      · right
        left
        unfold txCompleteOf at h2
        cases hf : findTx s.txs p.txid with
        | none => rw [hf] at h2; simp at h2
        | some r0 =>
          rw [hf] at h2
          have h2c : r0.complete = true := h2
          have hpred : (r0.txid == p.txid) = true := findTx_some_pred _ _ _ hf
          have htxs1 : (ensureJob p s).txs = s.txs := (ensureJob_fields p s).1
          have hfs : (findTx (ensureJob p s).txs p.txid).isSome = true := by
            rw [htxs1, hf]
            rfl
          have hset : findTx (ensureTx p (ensureJob p s)).txs p.txid
              = some { r0 with confirms := p.confirmations } := by
            unfold ensureTx
            rw [if_pos hfs]
            show findTx (setConfirms (ensureJob p s).txs p.txid p.confirmations) p.txid = _
            rw [findTx_setConfirms, htxs1, hf]
            show some (if (r0.txid == p.txid) = true then _ else r0) = _
            rw [if_pos hpred]
          have hcond : (!({ r0 with confirms := p.confirmations } : TxRow).complete
              && decide (3 ≤ p.confirmations)) = false := by
            show (!r0.complete && decide (3 ≤ p.confirmations)) = false
            rw [h2c]
            rfl
          unfold notifyDb notifyHandler
          rw [notifyAfter_eq_skip p (jobeAfter p s) (ensureTx p (ensureJob p s)) _ hset hcond]
          unfold txCompleteOf
          rw [hset]
          exact h2c
      · right
        right
        have hje : jobExists s.jobs p.txid = false := by simpa using h1
        have htc : txCompleteOf s.txs p.txid = false := by simpa using h2
        have hcf : createJobCond p s = false := by simpa using hcjc
        unfold createJobCond at hcf
        rw [hje, htc] at hcf
        simp at hcf
        omega

lemma notifyAfter_skip_post (p : NotifyPayload) (jb : Bool) (db2 : Db) :
    ∀ r, findTx (notifyAfter p jb db2).1.txs p.txid = some r →
      (r.complete = true ∨ ¬ (3 ≤ p.confirmations)) := by
  intro r hr
  cases hf : findTx db2.txs p.txid with
  | none =>
    rw [notifyAfter_eq_none p jb db2 hf] at hr
    rw [hf] at hr
    cases hr
  | some tx =>
    by_cases hb : (!tx.complete && decide (3 ≤ p.confirmations)) = true
    · rw [notifyAfter_eq_credit p jb db2 tx hf hb] at hr
      left
      have hdec : decide (3 ≤ p.confirmations) = true := by
        rcases Bool.and_eq_true_iff.mp hb with ⟨h1, h2⟩
        exact h2
      have hpred : (r.txid == p.txid) = true := findTx_some_pred _ _ _ hr
      have hr' : r ∈ (creditLoop p (collectLoop p jb p.balances db2 []).2
          { (collectLoop p jb p.balances db2 []).1 with
            txs := finalizeTx (collectLoop p jb p.balances db2 []).1.txs
              p.txid p.confirmations }).1.txs :=
        findTx_some_mem _ _ _ hr
      rcases credit_txs_mem p _ _ r hr' with h | h
      · have h2 : r ∈ finalizeTx (collectLoop p jb p.balances db2 []).1.txs
            p.txid p.confirmations := h
        rw [(collect_fields p jb p.balances db2 []).1] at h2
        have := (mem_finalizeTx _ _ _ r h2 hpred).2
        rw [this, hdec]
      · exact h.2.2.1
    · have hbf : (!tx.complete && decide (3 ≤ p.confirmations)) = false := by
        simpa using hb
      rw [notifyAfter_eq_skip p jb db2 tx hf hbf] at hr
      rw [hf] at hr
      have htr : tx = r := Option.some.inj hr
      subst htr
      cases hc : tx.complete
      · rw [hc] at hbf
        simp at hbf
        exact Or.inr (by omega)
      · exact Or.inl rfl

lemma notify_post_skip (p : NotifyPayload) (s : Db) :
    ∀ r, findTx (notifyDb p s).txs p.txid = some r →
      (r.complete = true ∨ ¬ (3 ≤ p.confirmations)) :=
  notifyAfter_skip_post p (jobeAfter p s) (ensureTx p (ensureJob p s))

/-! ### Idempotence of redelivery -/

lemma notify_idem_core (p : NotifyPayload) (s2 : Db)
    (h1 : jobExists s2.jobs p.txid = true ∨ txCompleteOf s2.txs p.txid = true
        ∨ ¬ (0 ≤ p.confirmations))
    (h2 : (findTx s2.txs p.txid).isSome = true)
    (h3 : ∀ r ∈ s2.txs, (r.txid == p.txid) = true → r.confirms = p.confirmations)
    (h4 : ∀ r, findTx s2.txs p.txid = some r →
        (r.complete = true ∨ ¬ (3 ≤ p.confirmations))) :
    notifyHandler p s2 = (s2, some "Recieved NOTIFY") := by
  have hcjc : createJobCond p s2 = false := by
    unfold createJobCond
    rcases h1 with h | h | h
    · rw [h]
      rfl
    · rw [h]
      simp
    · rw [decide_eq_false h]
      simp
  have hej : ensureJob p s2 = s2 := by
    unfold ensureJob
    rw [if_neg (by simp [hcjc])]
  have hsc : setConfirms s2.txs p.txid p.confirmations = s2.txs := setConfirms_id _ _ _ h3
  have het : ensureTx p s2 = s2 := by
    unfold ensureTx
    rw [if_pos h2, hsc]
  rcases Option.isSome_iff_exists.mp h2 with ⟨r, hr⟩
  have hcond : (!r.complete && decide (3 ≤ p.confirmations)) = false := by
    rcases h4 r hr with hc | hc
    · rw [hc]
      rfl
    · rw [decide_eq_false hc]
      simp
  unfold notifyHandler
  rw [hej, het]
  exact notifyAfter_eq_skip p (jobeAfter p s2) s2 r hr hcond

lemma notify_idem (p : NotifyPayload) (s : Db) :
    notifyHandler p (notifyDb p s) = (notifyDb p s, some "Recieved NOTIFY") :=
  notify_idem_core p (notifyDb p s) (notify_post_job p s) (notify_post_txe p s)
    (notify_post_conf p s) (notify_post_skip p s)

/-- Claim C3: delivering the same NOTIFY payload n times (n at least 1)
produces the same final database state as delivering it once; in particular
a redelivery of a completed transaction runs the no-op update path and
performs no further crediting (the second delivery replies normally). -/
theorem thm_c3 (p : NotifyPayload) (s : Db) (n : Nat) (hn : 1 ≤ n) :
    (notifyDb p)^[n] s = (notifyDb p)^[1] s := by
  induction n with
  | zero => omega
  | succ m ih =>
    by_cases hm : m = 0
    · subst hm
      rfl
    · have h1m : 1 ≤ m := by omega
      rw [Function.iterate_succ_apply', ih h1m, Function.iterate_one]
      show notifyDb p (notifyDb p s) = notifyDb p s
      have h := notify_idem p s
      unfold notifyDb at h ⊢
      rw [h]

/-- Witness for C3: two deliveries of the threshold-crossing NOTIFY equal
one delivery. -/
theorem wit_c3 :
    (notifyDb c4Payload)^[2] (c4State []) = (notifyDb c4Payload)^[1] (c4State []) :=
  thm_c3 c4Payload (c4State []) 2 (by decide)

/-! ### Claim C2: confirms tracking -/

/-- Claim C2 as amended: the handler overwrites confirms with the delivered
confirmations on every row of the txid (both the early update and the
finalizing update write the raw value, never the maximum), so confirms can
decrease; delivering 5 then 2 leaves confirms at 2. -/
theorem thm_c2_amended (p : NotifyPayload) (s : Db) :
    ∀ r ∈ (notifyDb p s).txs, r.txid = p.txid → r.confirms = p.confirmations := by
  intro r hr ht
  exact notify_post_conf p s r hr (by simpa using ht)

/-- Witness for C2 as amended: the row left by the 5-confirmation delivery
carries confirms 5. -/
theorem wit_c2 :
    ((⟨none, "T1", "", 0, 1, 5, true, true, none⟩ : TxRow)
        ∈ (notifyDb c2PayloadHigh emptyDb).txs)
    ∧ (⟨none, "T1", "", 0, 1, 5, true, true, none⟩ : TxRow).confirms
        = c2PayloadHigh.confirmations :=
  ⟨by decide, thm_c2_amended c2PayloadHigh emptyDb
    ⟨none, "T1", "", 0, 1, 5, true, true, none⟩ (by decide) (by decide)⟩

/-! ### Claim C1: crediting discipline -/

/-- Claim C1 as amended: once the transaction row of a txid is complete, a
NOTIFY for it changes no type-3 row (their users and amounts are untouched,
none is added or removed, and nothing is aborted: the handler replies
normally); the per-(txid, userId) uniqueness itself does not hold, because
deduplication is per address: one NOTIFY crediting two addresses of the
same user inserts two type-3 rows for that (txid, userId). -/
theorem thm_c1_amended :
    (∀ (p : NotifyPayload) (s : Db) (r0 : TxRow),
        findTx s.txs p.txid = some r0 → r0.complete = true →
        (((notifyDb p s).txs.filter
            (fun x => x.txtype == 3 && x.txid == p.txid)).map (fun x => (x.userId, x.amount))
          = ((s.txs.filter
            (fun x => x.txtype == 3 && x.txid == p.txid)).map (fun x => (x.userId, x.amount)))
        ∧ (notifyHandler p s).2 = some "Recieved NOTIFY"))
    ∧ (((notifyDb c1Payload c1State).txs.filter
        (fun x => x.txtype == 3 && x.userId == some "U1")).length = 2) := by
  constructor
  · intro p s r0 hf hc
    have hisome : (findTx s.txs p.txid).isSome = true := by
      rw [hf]
      rfl
    have het : ensureTx p s = { s with txs := setConfirms s.txs p.txid p.confirmations } := by
      unfold ensureTx
      rw [if_pos hisome]
    have hcjc : createJobCond p s = false := by
      unfold createJobCond txCompleteOf
      rw [hf]
      show (!jobExists s.jobs p.txid && !r0.complete && decide (0 ≤ p.confirmations)) = false
      rw [hc]
      simp
    have hej : ensureJob p s = s := by
      unfold ensureJob
      rw [if_neg (by simp [hcjc])]
    have hpred : (r0.txid == p.txid) = true := findTx_some_pred _ _ _ hf
    have hset : findTx (setConfirms s.txs p.txid p.confirmations) p.txid
        = some { r0 with confirms := p.confirmations } := by
      rw [findTx_setConfirms, hf]
      show some (if (r0.txid == p.txid) = true then _ else r0) = _
      rw [if_pos hpred]
    have hcond : (!({ r0 with confirms := p.confirmations } : TxRow).complete
        && decide (3 ≤ p.confirmations)) = false := by
      show (!r0.complete && decide (3 ≤ p.confirmations)) = false
      rw [hc]
      rfl
    have hrun : notifyHandler p s
        = ({ s with txs := setConfirms s.txs p.txid p.confirmations },
            some "Recieved NOTIFY") := by
      unfold notifyHandler
      rw [hej, het]
      exact notifyAfter_eq_skip p (jobeAfter p s)
        { s with txs := setConfirms s.txs p.txid p.confirmations }
        { r0 with confirms := p.confirmations } hset hcond
    constructor
    · show ((notifyHandler p s).1.txs.filter
          (fun x => x.txtype == 3 && x.txid == p.txid)).map (fun x => (x.userId, x.amount)) = _
      rw [hrun]
      show (((s.txs.map (fun r => if r.txid == p.txid
            then { r with confirms := p.confirmations } else r)).filter
          (fun x => x.txtype == 3 && x.txid == p.txid)).map (fun x => (x.userId, x.amount))) = _
      rw [filter_map_pres (fun r => if r.txid == p.txid
            then { r with confirms := p.confirmations } else r)
          (fun x => x.txtype == 3 && x.txid == p.txid)
          (fun a => by by_cases h : a.txid = p.txid <;> simp [h]) s.txs]
      rw [List.map_map]
      exact List.map_congr_left
        (fun a _ => by by_cases h : a.txid = p.txid <;> simp [h])
    · rw [hrun]
  · decide

/-- Witness for C1 as amended: redelivering a NOTIFY for the completed row
of T1 leaves the (empty) set of type-3 rows unchanged and replies. -/
theorem wit_c1 :
    (((notifyDb c2PayloadLow c1WitState).txs.filter
        (fun x => x.txtype == 3 && x.txid == c2PayloadLow.txid)).map
          (fun x => (x.userId, x.amount))
      = ((c1WitState.txs.filter
        (fun x => x.txtype == 3 && x.txid == c2PayloadLow.txid)).map
          (fun x => (x.userId, x.amount))))
    ∧ (notifyHandler c2PayloadLow c1WitState).2 = some "Recieved NOTIFY" :=
  thm_c1_amended.1 c2PayloadLow c1WitState c1WitRow (by decide) (by decide)

/-! ### Claim C5: the ledger and the cached balances -/

lemma findBal_some_pred (rows : List BalRow) (u : String) (r : BalRow)
    (h : findBal rows u = some r) : (r.userId == u) = true := by
  unfold findBal at h
  exact @List.find?_some BalRow (fun x => x.userId == u) r rows h

lemma findBal_some_mem (rows : List BalRow) (u : String) (r : BalRow)
    (h : findBal rows u = some r) : r ∈ rows := by
  unfold findBal at h
  exact List.mem_of_find?_eq_some h

lemma creditsOfTxs_append (l1 l2 : List TxRow) (u : String) :
    creditsOfTxs (l1 ++ l2) u = creditsOfTxs l1 u + creditsOfTxs l2 u := by
  simp [creditsOfTxs, List.filter_append, List.sum_append]

lemma creditsOfTxs_tx1 (p : NotifyPayload) (u : String) :
    creditsOfTxs [mkTx1 p] u = 0 := by
  simp [creditsOfTxs, mkTx1]

lemma creditsOfTxs_credit_self (p : NotifyPayload) (a uid : String) (amt : Rat) :
    creditsOfTxs [mkCredit p a uid amt] uid = amt := by
  simp [creditsOfTxs, mkCredit]

lemma creditsOfTxs_credit_other (p : NotifyPayload) (a uid : String) (amt : Rat)
    (u : String) (h : uid ≠ u) : creditsOfTxs [mkCredit p a uid amt] u = 0 := by
  simp [creditsOfTxs, mkCredit, h]

lemma creditsOfTxs_setConfirms (txs : List TxRow) (t : String) (c : Int) (u : String) :
    creditsOfTxs (setConfirms txs t c) u = creditsOfTxs txs u := by
  unfold creditsOfTxs
  show (((txs.map (fun r => if r.txid == t then { r with confirms := c } else r)).filter
      (fun r => r.txtype == 3 && r.userId == some u)).map (fun r => (r.amount.getD 0))).sum = _
  rw [filter_map_pres (fun r => if r.txid == t then { r with confirms := c } else r)
    (fun r => r.txtype == 3 && r.userId == some u)
    (fun a => by by_cases h : a.txid = t <;> simp [h]) txs]
  rw [List.map_map]
  congr 1
  exact List.map_congr_left (fun a _ => by by_cases h : a.txid = t <;> simp [h])

lemma creditsOfTxs_finalizeTx (txs : List TxRow) (t : String) (c : Int) (u : String) :
    creditsOfTxs (finalizeTx txs t c) u = creditsOfTxs txs u := by
  unfold creditsOfTxs
  show (((txs.map (fun r => if r.txid == t then
      { r with confirms := c, complete := decide (3 ≤ c), processed := true } else r)).filter
      (fun r => r.txtype == 3 && r.userId == some u)).map (fun r => (r.amount.getD 0))).sum = _
  rw [filter_map_pres (fun r => if r.txid == t then
      { r with confirms := c, complete := decide (3 ≤ c), processed := true } else r)
    (fun r => r.txtype == 3 && r.userId == some u)
    (fun a => by by_cases h : a.txid = t <;> simp [h]) txs]
  rw [List.map_map]
  congr 1
  exact List.map_congr_left (fun a _ => by by_cases h : a.txid = t <;> simp [h])

lemma ledger_congr (d1 d2 : Db) (hb : d2.bals = d1.bals)
    (hc : ∀ u, creditsOfTxs d2.txs u = creditsOfTxs d1.txs u)
    (hm : BalsMatchLedger d1) : BalsMatchLedger d2 := by
  intro br hbr
  rw [hb] at hbr
  show br.balance = creditsOf d2 br.userId
  unfold creditsOf
  rw [hc]
  exact hm br hbr

lemma creditLoop_ledger (p : NotifyPayload) :
    ∀ (l : List (String × String × String)) (db : Db),
      (∀ e ∈ l, (findBal db.bals e.2.1).isSome = true) →
      BalsMatchLedger db →
      BalsMatchLedger (creditLoop p l db).1 := by
  intro l
  induction l with
  | nil => intro db hk hm; exact hm
  | cons e rest ih =>
    intro db hk hm
    obtain ⟨a, uid, bstr⟩ := e
    have hkhead : (findBal db.bals uid).isSome = true := hk _ (List.mem_cons_self _ _)
    cases hfb : findBal db.bals uid with
    | none =>
      rw [hfb] at hkhead
      simp at hkhead
    | some br =>
      have hstep : creditLoop p ((a, uid, bstr) :: rest) db
          = creditLoop p rest { db with
              txs := db.txs ++ [mkCredit p a uid (decStrToRat (parseFromIntString bstr 8))],
              bals := addBal db.bals uid (decStrToRat (parseFromIntString bstr 8)) } := by
        simp only [creditLoop, hfb]
      rw [hstep]
      apply ih
      · intro e he
        have hkeep := hk e (List.mem_cons_of_mem _ he)
        show (findBal (addBal db.bals uid _) e.2.1).isSome = true
        unfold findBal addBal
        rw [find?_map_pres _ _ (fun x => addBal_pres uid _ x e.2.1) db.bals, isSome_map_eq]
        exact hkeep
      · intro br2 hbr2
        rcases List.mem_map.mp hbr2 with ⟨br0, hbr0, heq⟩
        have hm0 := hm br0 hbr0
        show br2.balance = creditsOfTxs
          (db.txs ++ [mkCredit p a uid (decStrToRat (parseFromIntString bstr 8))]) br2.userId
        rw [creditsOfTxs_append]
        by_cases h0 : br0.userId = uid
        · have hb0 : (br0.userId == uid) = true := by simpa using h0
          rw [if_pos hb0] at heq
          rw [← heq]
          show br0.balance + decStrToRat (parseFromIntString bstr 8)
              = creditsOfTxs db.txs br0.userId
                + creditsOfTxs [mkCredit p a uid (decStrToRat (parseFromIntString bstr 8))]
                    br0.userId
          rw [h0] at hm0 ⊢
          rw [hm0, creditsOfTxs_credit_self]
          rfl
        · have hb0 : (br0.userId == uid) = false := by simpa using h0
          rw [if_neg (by simp [hb0])] at heq
          rw [← heq]
          show br0.balance = creditsOfTxs db.txs br0.userId
              + creditsOfTxs [mkCredit p a uid (decStrToRat (parseFromIntString bstr 8))]
                  br0.userId
          rw [creditsOfTxs_credit_other p a uid _ br0.userId (fun he => h0 he.symm), add_zero]
          exact hm0

lemma notify_addrs (p : NotifyPayload) (s : Db) : (notifyDb p s).addrs = s.addrs := by
  have hbase : (ensureTx p (ensureJob p s)).addrs = s.addrs := by
    rw [(ensureTx_fields p (ensureJob p s)).2.2.1, (ensureJob_fields p s).2.2.1]
  cases hf : findTx (ensureTx p (ensureJob p s)).txs p.txid with
  | none =>
    unfold notifyDb notifyHandler
    rw [notifyAfter_eq_none p (jobeAfter p s) _ hf]
    exact hbase
  | some tx =>
    by_cases hb : (!tx.complete && decide (3 ≤ p.confirmations)) = true
    · unfold notifyDb notifyHandler
      rw [notifyAfter_eq_credit p (jobeAfter p s) _ tx hf hb]
      show (notifyCredit p (jobeAfter p s) (ensureTx p (ensureJob p s))).1.addrs = s.addrs
      rw [notifyCredit_eq]
      rw [(credit_fields p _ _).2.1]
      show (collectLoop p (jobeAfter p s) p.balances (ensureTx p (ensureJob p s)) []).1.addrs
          = s.addrs
      rw [(collect_fields p (jobeAfter p s) p.balances _ []).2.2.1]
      exact hbase
    · have hbf : (!tx.complete && decide (3 ≤ p.confirmations)) = false := by
        simpa using hb
      unfold notifyDb notifyHandler
      rw [notifyAfter_eq_skip p (jobeAfter p s) _ tx hf hbf]
      exact hbase

lemma notify_balkeys (p : NotifyPayload) (s : Db) (u : String) :
    (findBal (notifyDb p s).bals u).isSome = (findBal s.bals u).isSome := by
  have hbase : (ensureTx p (ensureJob p s)).bals = s.bals := by
    rw [(ensureTx_fields p (ensureJob p s)).2.1, (ensureJob_fields p s).2.1]
  cases hf : findTx (ensureTx p (ensureJob p s)).txs p.txid with
  | none =>
    unfold notifyDb notifyHandler
    rw [notifyAfter_eq_none p (jobeAfter p s) _ hf, hbase]
  | some tx =>
    by_cases hb : (!tx.complete && decide (3 ≤ p.confirmations)) = true
    · unfold notifyDb notifyHandler
      rw [notifyAfter_eq_credit p (jobeAfter p s) _ tx hf hb]
      show (findBal (notifyCredit p (jobeAfter p s) (ensureTx p (ensureJob p s))).1.bals
          u).isSome = _
      rw [notifyCredit_eq]
      rw [credit_balkeys]
      show (findBal (collectLoop p (jobeAfter p s) p.balances
          (ensureTx p (ensureJob p s)) []).1.bals u).isSome = _
      rw [(collect_fields p (jobeAfter p s) p.balances _ []).2.1, hbase]
    · have hbf : (!tx.complete && decide (3 ≤ p.confirmations)) = false := by
        simpa using hb
      unfold notifyDb notifyHandler
      rw [notifyAfter_eq_skip p (jobeAfter p s) _ tx hf hbf, hbase]

lemma ensureTx_ledger (p : NotifyPayload) (db : Db) (hm : BalsMatchLedger db) :
    BalsMatchLedger (ensureTx p db) := by
  apply ledger_congr db _ (ensureTx_fields p db).2.1 _ hm
  intro u
  unfold ensureTx
  split
  · show creditsOfTxs (setConfirms db.txs p.txid p.confirmations) u = _
    exact creditsOfTxs_setConfirms _ _ _ u
  · show creditsOfTxs (db.txs ++ [mkTx1 p]) u = _
    rw [creditsOfTxs_append, creditsOfTxs_tx1, add_zero]

lemma notify_ledger (p : NotifyPayload) (s : Db)
    (hcov : Covered s) (hm : BalsMatchLedger s) : BalsMatchLedger (notifyDb p s) := by
  have hm1 : BalsMatchLedger (ensureJob p s) :=
    ledger_congr s _ (ensureJob_fields p s).2.1
      (fun u => by rw [(ensureJob_fields p s).1]) hm
  have hm2 : BalsMatchLedger (ensureTx p (ensureJob p s)) := ensureTx_ledger p _ hm1
  have hbals2 : (ensureTx p (ensureJob p s)).bals = s.bals := by
    rw [(ensureTx_fields p (ensureJob p s)).2.1, (ensureJob_fields p s).2.1]
  have haddrs2 : (ensureTx p (ensureJob p s)).addrs = s.addrs := by
    rw [(ensureTx_fields p (ensureJob p s)).2.2.1, (ensureJob_fields p s).2.2.1]
  cases hf : findTx (ensureTx p (ensureJob p s)).txs p.txid with
  | none =>
    unfold notifyDb notifyHandler
    rw [notifyAfter_eq_none p (jobeAfter p s) _ hf]
    exact hm2
  | some tx =>
    by_cases hb : (!tx.complete && decide (3 ≤ p.confirmations)) = true
    · unfold notifyDb notifyHandler
      rw [notifyAfter_eq_credit p (jobeAfter p s) _ tx hf hb]
      show BalsMatchLedger (notifyCredit p (jobeAfter p s) (ensureTx p (ensureJob p s))).1
      rw [notifyCredit_eq]
      apply creditLoop_ledger
      · -- every attributed user has a balance row
        intro e he
        have hattr := collect_attr p (jobeAfter p s) p.balances
          (ensureTx p (ensureJob p s)) [] (by intro e he2; cases he2) e he
        rcases hattr with ⟨ar, harmem, haru⟩
        rw [haddrs2] at harmem
        have hsb : (findBal s.bals e.2.1).isSome = true := hcov ar harmem e.2.1 haru
        show (findBal { (collectLoop p (jobeAfter p s) p.balances
            (ensureTx p (ensureJob p s)) []).1 with
            txs := finalizeTx (collectLoop p (jobeAfter p s) p.balances
              (ensureTx p (ensureJob p s)) []).1.txs p.txid p.confirmations }.bals
            e.2.1).isSome = true
        show (findBal (collectLoop p (jobeAfter p s) p.balances
            (ensureTx p (ensureJob p s)) []).1.bals e.2.1).isSome = true
        rw [(collect_fields p (jobeAfter p s) p.balances _ []).2.1, hbals2]
        exact hsb
      · -- the ledger matches before the credit loop
        apply ledger_congr (ensureTx p (ensureJob p s)) _ _ _ hm2
        · show (collectLoop p (jobeAfter p s) p.balances
              (ensureTx p (ensureJob p s)) []).1.bals = _
          rw [(collect_fields p (jobeAfter p s) p.balances _ []).2.1]
        · intro u
          show creditsOfTxs (finalizeTx (collectLoop p (jobeAfter p s) p.balances
              (ensureTx p (ensureJob p s)) []).1.txs p.txid p.confirmations) u = _
          rw [creditsOfTxs_finalizeTx, (collect_fields p (jobeAfter p s) p.balances _ []).1]
    · have hbf : (!tx.complete && decide (3 ≤ p.confirmations)) = false := by
        simpa using hb
      unfold notifyDb notifyHandler
      rw [notifyAfter_eq_skip p (jobeAfter p s) _ tx hf hbf]
      exact hm2

lemma notify_covered (p : NotifyPayload) (s : Db) (hcov : Covered s) :
    Covered (notifyDb p s) := by
  intro ar har uid huid
  rw [notify_addrs] at har
  rw [notify_balkeys]
  exact hcov ar har uid huid

lemma notify_ledger_fold (msgs : List NotifyPayload) :
    ∀ (s : Db), Covered s → BalsMatchLedger s →
      BalsMatchLedger (msgs.foldl (fun d q => notifyDb q d) s) := by
  induction msgs with
  | nil => intro s hcov hm; exact hm
  | cons q rest ih =>
    intro s hcov hm
    show BalsMatchLedger (rest.foldl (fun d q => notifyDb q d) (notifyDb q s))
    exact ih (notifyDb q s) (notify_covered q s hcov) (notify_ledger q s hcov hm)

/-- Claim C5 as amended: provided every address-mapped user has a balance
row and the cached balances initially match the ledger, then after any
sequence of NOTIFY deliveries every cached balance equals the exact sum of
the amounts of the type-3 rows of its user (amounts are modelled as exact
rationals; the binary floating point the source uses is not modelled, and
a credited user without a balance row makes the handler throw between the
ledger insert and the balance write, which is why the precondition is
needed). -/
theorem thm_c5_amended (msgs : List NotifyPayload) (s : Db)
    (hcov : Covered s) (hm : BalsMatchLedger s) :
    ∀ u b, balanceOf (msgs.foldl (fun d q => notifyDb q d) s) u = some b →
      b = creditsOf (msgs.foldl (fun d q => notifyDb q d) s) u := by
  have hfin := notify_ledger_fold msgs s hcov hm
  intro u b hb
  unfold balanceOf at hb
  rcases Option.map_eq_some'.mp hb with ⟨br, hbr, hbal⟩
  have hmem := findBal_some_mem _ _ _ hbr
  have hpred : (br.userId == u) = true := findBal_some_pred _ _ _ hbr
  have hueq : br.userId = u := by simpa using hpred
  rw [← hbal, ← hueq]
  exact hfin br hmem

/-- Witness for C5 as amended: one threshold-crossing delivery on the
scenario-2 state leaves the cached balance of U1 equal to its ledger sum. -/
theorem wit_c5 :
    balanceOf (List.foldl (fun d q => notifyDb q d) (c4State []) [c4Payload]) "U1"
        = some (3 / 2 : Rat)
    ∧ (3 / 2 : Rat) = creditsOf
        (List.foldl (fun d q => notifyDb q d) (c4State []) [c4Payload]) "U1" := by
  have hcov : Covered (c4State []) := by
    intro ar har uid huid
    simp [c4State] at har
    subst har
    simp at huid
    subst huid
    rfl
  have hm : BalsMatchLedger (c4State []) := by
    intro br hbr
    simp [c4State] at hbr
    subst hbr
    show (0 : Rat) = creditsOf (c4State []) "U1"
    simp [creditsOf, creditsOfTxs, c4State]
  have hb : balanceOf (List.foldl (fun d q => notifyDb q d) (c4State []) [c4Payload]) "U1"
      = some (3 / 2 : Rat) := by
    show balanceOf (notifyDb c4Payload (c4State [])) "U1" = some (3 / 2 : Rat)
    simp [balanceOf, findBal, notifyDb, notifyHandler, notifyAfter, notifyCredit, jobeAfter,
      ensureJob, createJobCond, c4State, c4Payload, jobExists, txCompleteOf, findTx,
      ensureTx, setConfirms, finalizeTx, collectLoop, creditLoop, upsertAttr, findAddr,
      promoteJobs, addBal, mkJob0, mkCredit, mkTx1, amt150_eq]
  exact ⟨hb, thm_c5_amended [c4Payload] (c4State []) hcov hm "U1" (3 / 2) hb⟩

end WalletBroker
